import Mathlib

/-!
# GlobalITZone backend — shallow embedding and verification

A shallow embedding of the request-handling core of the GlobalITZone
e-commerce backend (Express/Mongoose controllers under `src/controllers`,
routes under `src/routes`), together with theorems settling the frozen
claims about its specification.

Conventions of the embedding:
* JavaScript optional / possibly-`undefined` values become `Option`;
  JS truthiness of strings (`""` falsy) and numbers (`0` falsy) is made
  explicit through `truthyS` / `truthyN`.
* Mongo documents become Lean structures; `find` / `findOne` become
  `List.filter` / `List.find?` over an explicit document list.
* The Mongoose model files (`models/User.js`, `models/Product.js`,
  `models/Booking.js`) are not part of the available sources; the few
  facts taken from them (schema defaults, `updateStatus`, the `orderDate`
  sort key, schema-strict update semantics) are modelled from the spec
  and marked as such in their doc comments.
-/

namespace GlobalITZone

/-- JS truthiness of an optional string: `undefined` and `""` are falsy. -/
def truthyS : Option String → Bool
  | none => false
  | some s => s ≠ ""

/-- JS truthiness of an optional number: `undefined` and `0` are falsy. -/
def truthyN : Option Int → Bool
  | none => false
  | some v => v ≠ 0

/-- JS `x || 0` on an optional numeric request field
(`bookingsController.js` pricing snapshot). -/
def numOrZero (o : Option Int) : Int :=
  if truthyN o then o.getD 0 else 0

/-- JS `a || b` on optional strings (`f.path || f.secure_url`, …). -/
def strOr (a b : Option String) : Option String :=
  if truthyS a then a else b

/-- A request value that may arrive either as a raw string or (after
express-validator `toBoolean`) as a boolean. -/
inductive QVal where
  | str (s : String)
  | bool (b : Bool)
deriving DecidableEq, Repr

/-- A request field that may arrive as a structured array or as a single
string (`features`, `tags`, `removePublicIds`). -/
inductive FlexInput where
  | list (xs : List String)
  | str (s : String)
deriving DecidableEq, Repr

/-- JS truthiness of a `FlexInput`: arrays are always truthy, a string is
truthy iff nonempty. -/
def truthyFlex : FlexInput → Bool
  | .list _ => true
  | .str s => s ≠ ""

/-! ## JS string primitives

`String.prototype.split(',')`, `trim()`, `toLowerCase()` at character
level, so that the normalization pipelines of `productsController.js`
can be reasoned about by structural induction. -/

/-- Accumulator-based splitting of a character list at `','`
(the JS `split(',')` on the underlying characters). -/
def splitCommaAux : List Char → List Char → List (List Char)
  | [], acc => [acc.reverse]
  | c :: cs, acc =>
    if c = ',' then acc.reverse :: splitCommaAux cs []
    else splitCommaAux cs (c :: acc)

/-- JS `s.split(',')`. -/
def jsSplitComma (s : String) : List String :=
  (splitCommaAux s.toList []).map String.mk

/-- The whitespace class stripped by JS `trim()` (ASCII part). -/
def jsIsWhitespace (c : Char) : Bool :=
  c = ' ' || c = '\t' || c = '\n' || c = '\r' || c = '\x0b' || c = '\x0c'

/-- JS `trim()` on a character list. -/
def jsTrimList (l : List Char) : List Char :=
  ((l.dropWhile jsIsWhitespace).reverse.dropWhile jsIsWhitespace).reverse

/-- JS `s.trim()`. -/
def jsTrim (s : String) : String :=
  String.mk (jsTrimList s.toList)

/-- JS `s.toLowerCase()` (ASCII case folding). -/
def jsToLower (s : String) : String :=
  String.mk (s.toList.map Char.toLower)

/-! ## Products (`controllers/productsController.js`) -/

/-- A product document as built by `createProduct` / mutated by
`updateProduct` / `deleteProduct`. (`specifications` is omitted: no claim
touches it and its JSON-text parsing is orthogonal to the rest.) -/
structure Product where
  name : String
  description : String
  category : String
  condition : String
  type : String
  availability : String
  price : Int
  originalPrice : Int
  discount : Int
  stock : Int
  features : List String
  tags : List String
  images : List String
  imagePublicIds : List String
  isActive : Bool
  views : Int
  likes : Int
  createdBy : Nat
deriving DecidableEq, Repr

/-- The query-string parameters read by `buildFilter` (lines 7–49).
`minPrice`/`maxPrice` stand for a provided, numeric-parsing query value. -/
structure ProductQuery where
  category : Option String
  condition : Option String
  type : Option String
  availability : Option String
  minPrice : Option Int
  maxPrice : Option Int
  search : Option String
  isActive : Option QVal
  tags : Option FlexInput
deriving Repr

/-- The Mongo filter object produced by `buildFilter`. -/
structure ProductFilter where
  isActive : Bool
  category : Option String
  condition : Option String
  type : Option String
  availability : Option String
  minPrice : Option Int
  maxPrice : Option Int
  search : Option String
  tags : Option (List String)
deriving DecidableEq, Repr

/-- `isActive === 'true' || isActive === true` (line 23). -/
def qvalToBool : QVal → Bool
  | .str s => s = "true"
  | .bool b => b

/-- `if (x) filter.k = x` for a string query field: the field is set only
when truthy. -/
def presentS (o : Option String) : Option String :=
  if truthyS o then o else none

/-- The tag-list normalization of `buildFilter` (line 44):
`Array.isArray(tags) ? tags : String(tags).split(',').map(s => s.trim().toLowerCase())`.
Note: unlike `createProduct`/`updateProduct` there is no `.filter(Boolean)`. -/
def normalizeTagsFilter : FlexInput → List String
  | .list xs => xs
  | .str s => (jsSplitComma s).map (fun x => jsToLower (jsTrim x))

/-- `buildFilter` (productsController.js lines 7–49). -/
def buildFilter (q : ProductQuery) : ProductFilter where
  isActive :=
    match q.isActive with
    | none => true
    | some v => qvalToBool v
  category := presentS q.category
  condition := presentS q.condition
  type := presentS q.type
  availability := presentS q.availability
  minPrice := q.minPrice
  maxPrice := q.maxPrice
  search := presentS q.search
  tags :=
    match q.tags with
    | none => none
    | some t => if truthyFlex t then some (normalizeTagsFilter t) else none

/-- `none` means the filter leaves the field unconstrained. -/
def matchesOpt (o : Option String) (v : String) : Bool :=
  match o with
  | none => true
  | some x => v = x

/-- Whether a product document matches the Mongo filter built by
`buildFilter`. `textMatch` abstracts the `$text` full-text index. -/
def matchesFilter (textMatch : String → Product → Bool)
    (f : ProductFilter) (p : Product) : Bool :=
  (p.isActive == f.isActive)
  && matchesOpt f.category p.category
  && matchesOpt f.condition p.condition
  && matchesOpt f.type p.type
  && matchesOpt f.availability p.availability
  && (match f.minPrice with | none => true | some v => v ≤ p.price)
  && (match f.maxPrice with | none => true | some v => p.price ≤ v)
  && (match f.search with | none => true | some s => textMatch s p)
  && (match f.tags with | none => true | some ts => ts.any (fun t => p.tags.contains t))

/-- The matching records of `Product.find(filter)` for a listing query. -/
def listFiltered (textMatch : String → Product → Bool)
    (db : List Product) (q : ProductQuery) : List Product :=
  db.filter (matchesFilter textMatch (buildFilter q))

/-- A Cloudinary/multer upload entry as read by `createProduct` /
`updateProduct` (`f.path || f.secure_url`, `f.filename || f.public_id`). -/
structure UploadedFile where
  path : Option String
  secure_url : Option String
  filename : Option String
  public_id : Option String
deriving DecidableEq, Repr

/-- `files.map(f => f.path || f.secure_url).filter(Boolean)` (line 129/197). -/
def extractUrls (files : List UploadedFile) : List String :=
  (files.map (fun f => strOr f.path f.secure_url)).filterMap
    (fun o => if truthyS o then o else none)

/-- `files.map(f => f.filename || f.public_id).filter(Boolean)` (line 130/198). -/
def extractIds (files : List UploadedFile) : List String :=
  (files.map (fun f => strOr f.filename f.public_id)).filterMap
    (fun o => if truthyS o then o else none)

/-- `createProduct` features normalization (line 139):
`Array.isArray(features) ? features : String(features).split(',').map(s => s.trim()).filter(Boolean)`. -/
def normalizeFeaturesCreate : FlexInput → List String
  | .list xs => xs
  | .str s => ((jsSplitComma s).map jsTrim).filter (· ≠ "")

/-- `createProduct` tags normalization (line 147):
`Array.isArray(tags) ? tags : String(tags).split(',').map(s => s.trim().toLowerCase()).filter(Boolean)`. -/
def normalizeTagsCreate : FlexInput → List String
  | .list xs => xs
  | .str s => ((jsSplitComma s).map (fun x => jsToLower (jsTrim x))).filter (· ≠ "")

/-- `updateProduct` features normalization (lines 171–173): the string
shape is split/trimmed/filtered, any other shape is left as supplied. -/
def normalizeFeaturesUpdate : FlexInput → List String
  | .list xs => xs
  | .str s => ((jsSplitComma s).map jsTrim).filter (· ≠ "")

/-- `updateProduct` tags normalization (lines 174–176). -/
def normalizeTagsUpdate : FlexInput → List String
  | .list xs => xs
  | .str s => ((jsSplitComma s).map (fun x => jsToLower (jsTrim x))).filter (· ≠ "")

/-- Modelled from the spec: the Product schema (`models/Product.js`, not
under `src/`) declares `isActive` default `true` and `views`/`likes`
default `0`; `createProduct` sets none of them, so a created document
carries these defaults (§3: "isActive (bool, default true)"). -/
def productDefaultIsActive : Bool := true

/-- The request body of `createProduct` after route validation
(name/description/category/condition/type required). -/
structure CreateProductBody where
  name : String
  description : String
  category : String
  condition : String
  type : String
  availability : Option String
  features : FlexInput
  price : Int
  originalPrice : Int
  discount : Int
  stock : Int
  tags : FlexInput
deriving Repr

/-- Outcome of `createProduct`. -/
inductive CreateProductRes where
  | missingImages
  | created (p : Product)
deriving DecidableEq, Repr

/-- `createProduct` (productsController.js lines 105–156): rejects an
empty upload list, otherwise builds the document. -/
def createProduct (b : CreateProductBody) (files : List UploadedFile)
    (adminId : Nat) : CreateProductRes :=
  if files.length = 0 then .missingImages
  else .created {
    name := b.name
    description := b.description
    category := b.category
    condition := b.condition
    type := b.type
    availability := if truthyS b.availability then b.availability.getD "" else "Available"
    price := b.price
    originalPrice := b.originalPrice
    discount := b.discount
    stock := b.stock
    features := normalizeFeaturesCreate b.features
    tags := normalizeTagsCreate b.tags
    images := extractUrls files
    imagePublicIds := extractIds files
    isActive := productDefaultIsActive
    views := 0
    likes := 0
    createdBy := adminId }

/-- The request body of `updateProduct` (multipart fields; absent keys are
`none`). -/
structure ProductUpdateBody where
  name : Option String
  description : Option String
  category : Option String
  condition : Option String
  type : Option String
  availability : Option String
  features : Option FlexInput
  price : Option Int
  originalPrice : Option Int
  discount : Option Int
  stock : Option Int
  tags : Option FlexInput
  isActive : Option Bool
  removePublicIds : Option FlexInput
deriving Repr

/-- `removePublicIds` normalization (line 184):
`Array.isArray(x) ? x : String(x).split(',').map(s => s.trim())`
— no `.filter(Boolean)`, no lowercasing. -/
def normalizeRemoveIds : FlexInput → List String
  | .list xs => xs
  | .str s => (jsSplitComma s).map jsTrim

/-- The image effect of `updateProduct` (lines 181–201): removal filters
`imagePublicIds` only (the `images` URLs are deliberately kept, see the
source comment), then fresh uploads are appended to both arrays. -/
def updateProductImages (p : Product) (removePublicIds : Option FlexInput)
    (files : List UploadedFile) : Product :=
  let p1 :=
    match removePublicIds with
    | none => p
    | some rv =>
      if truthyFlex rv then
        { p with imagePublicIds :=
            p.imagePublicIds.filter (fun pid => !(normalizeRemoveIds rv).contains pid) }
      else p
  if files.length ≠ 0 then
    { p1 with images := p1.images ++ extractUrls files,
              imagePublicIds := p1.imagePublicIds ++ extractIds files }
  else p1

/-- `updateProduct` (productsController.js lines 160–219): image handling
followed by assignment of the explicit mutable field list (lines 204–210;
`images`/`imagePublicIds` are not in that list). -/
def updateProduct (p : Product) (b : ProductUpdateBody)
    (files : List UploadedFile) : Product :=
  let p1 := updateProductImages p b.removePublicIds files
  { p1 with
    name := b.name.getD p1.name
    description := b.description.getD p1.description
    category := b.category.getD p1.category
    condition := b.condition.getD p1.condition
    type := b.type.getD p1.type
    availability := b.availability.getD p1.availability
    features := (b.features.map normalizeFeaturesUpdate).getD p1.features
    price := b.price.getD p1.price
    originalPrice := b.originalPrice.getD p1.originalPrice
    discount := b.discount.getD p1.discount
    stock := b.stock.getD p1.stock
    tags := (b.tags.map normalizeTagsUpdate).getD p1.tags
    isActive := b.isActive.getD p1.isActive }

/-- `deleteProduct` (lines 222–239): soft delete. -/
def deleteProduct (p : Product) : Product :=
  { p with isActive := false, availability := "Discontinued" }

/-! ## Users (`controllers/usersController.js`) -/

/-- A user document (spec §3). `password` is the stored credential hash. -/
structure User where
  id : Nat
  name : String
  email : String
  phone : String
  password : String
  role : String
  isActive : Bool
deriving DecidableEq, Repr

/-- The admin-driven update request body. The controller spreads the whole
body (`const updateData = { ...req.body }`); Mongoose strict mode keeps
only declared schema paths, so the body is modelled as the schema paths
an attacker can reach — including `password`. -/
structure UserUpdateBody where
  name : Option String
  email : Option String
  phone : Option String
  role : Option String
  isActive : Option Bool
  password : Option String
deriving DecidableEq, Repr

/-- `User.findById` over the document list. -/
def findUserById (db : List User) (i : Nat) : Option User :=
  db.find? (fun u => u.id == i)

/-- The conflict filter of `updateUser` (lines 254–258):
`{_id: {$ne: id}}` plus `email` and/or `phone` — a CONJUNCTION of the
provided fields, matching the source exactly. -/
def conflictPred (targetId : Nat) (e p : Option String) (u : User) : Bool :=
  (u.id != targetId)
  && (match e with | none => true | some v => u.email = v)
  && (match p with | none => true | some v => u.phone = v)

/-- The email value included into the conflict filter:
`if (updateData.email) conflictFilter.email = updateData.email`. -/
def includedEmail (b : UserUpdateBody) : Option String :=
  if truthyS b.email then b.email else none

/-- Likewise for phone. -/
def includedPhone (b : UserUpdateBody) : Option String :=
  if truthyS b.phone then b.phone else none

/-- Modelled from the spec: `User.findByIdAndUpdate(id, updateData)` with
the User schema of §3 (`models/User.js` is not under `src/`) applies every
body key that is a declared schema path — name, email, phone, role,
isActive, and the stored `password` — to the document; only non-schema
keys are dropped by Mongoose strict mode. -/
def applyUserUpdate (u : User) (b : UserUpdateBody) : User :=
  { u with
    name := b.name.getD u.name
    email := b.email.getD u.email
    phone := b.phone.getD u.phone
    role := b.role.getD u.role
    isActive := b.isActive.getD u.isActive
    password := b.password.getD u.password }

/-- Replace the document with id `u'.id` by `u'`. -/
def replaceUser (db : List User) (u' : User) : List User :=
  db.map (fun u => if u.id = u'.id then u' else u)

/-- Outcome of `updateUser`. `internalError` is the controller's catch-all
(HTTP 500) reached when the persistence layer rejects the write. -/
inductive UpdateUserRes where
  | notFound
  | selfDemotion
  | conflict (msg : String)
  | internalError
  | ok (u : User)
deriving DecidableEq, Repr

/-- Modelled from the spec: the User schema's unique indexes on email and
phone (`models/User.js` is not under `src/`; §3 "email and phone are
globally unique among users", §5 "unique-index-backed rejection"): a
write whose resulting document would duplicate another user's email or
phone is rejected by the persistence layer. -/
def uniqueIndexViolation (db : List User) (u' : User) : Bool :=
  db.any (fun u => u.id != u'.id && (u.email == u'.email || u.phone == u'.phone))

/-- The write step of `updateUser`: `findByIdAndUpdate` commits the
updated document unless the spec-modelled unique index rejects it, in
which case the thrown duplicate-key error lands in the controller's
catch-all (a 500 internal error, not a typed Conflict) and the store is
unchanged. -/
def commitUserUpdate (db : List User) (user : User) (b : UserUpdateBody) :
    UpdateUserRes × List User :=
  if uniqueIndexViolation db (applyUserUpdate user b) then (.internalError, db)
  else (.ok (applyUserUpdate user b), replaceUser db (applyUserUpdate user b))

/-- `updateUser` (usersController.js lines 240–278): lookup, self-demotion
guard, conjunctive email/phone conflict check, then a whole-body
`findByIdAndUpdate` subject to the unique indexes. Returns the outcome
and the resulting document list. -/
def updateUser (db : List User) (actorId targetId : Nat)
    (b : UserUpdateBody) : UpdateUserRes × List User :=
  match findUserById db targetId with
  | none => (.notFound, db)
  | some user =>
    if actorId = targetId ∧ b.role = some "user" then (.selfDemotion, db)
    else if truthyS b.email || truthyS b.phone then
      match db.find? (conflictPred targetId (includedEmail b) (includedPhone b)) with
      | some existing =>
        (.conflict (if some existing.email = b.email then "Email already in use"
                    else "Phone number already in use"), db)
      | none => commitUserUpdate db user b
    else commitUserUpdate db user b

/-- Outcome of `deleteUser`. -/
inductive DeleteUserRes where
  | notFound
  | selfDeleteForbidden
  | ok
deriving DecidableEq, Repr

/-- `deleteUser` (usersController.js lines 280–298): soft delete with a
self-delete guard. -/
def deleteUser (db : List User) (actorId targetId : Nat) :
    DeleteUserRes × List User :=
  match findUserById db targetId with
  | none => (.notFound, db)
  | some user =>
    if actorId = targetId then (.selfDeleteForbidden, db)
    else (.ok, replaceUser db { user with isActive := false })

/-! ## Pagination (`listProducts` lines 52–85, `getUsers` lines 188–226) -/

/-- JS `Math.ceil(total / limit)` for positive integer `limit`. -/
def ceilDiv (total limit : Nat) : Nat :=
  (total + limit - 1) / limit

/-- The pagination metadata block. -/
structure PaginationMeta where
  currentPage : Nat
  totalPages : Nat
  totalItems : Nat
  hasNextPage : Bool
  hasPrevPage : Bool
deriving DecidableEq, Repr

/-- The metadata computed by `listProducts` (lines 73–79):
`hasNextPage: page * limit < total`. -/
def productsPagination (total page limit : Nat) : PaginationMeta where
  currentPage := page
  totalPages := ceilDiv total limit
  totalItems := total
  hasNextPage := page * limit < total
  hasPrevPage := 1 < page

/-- The metadata computed by `getUsers` (lines 210–220):
`hasNextPage: page < totalPages`. -/
def usersPagination (total page limit : Nat) : PaginationMeta where
  currentPage := page
  totalPages := ceilDiv total limit
  totalItems := total
  hasNextPage := page < ceilDiv total limit
  hasPrevPage := 1 < page

/-- `skip((page-1)*limit).limit(limit)` over the sorted matching records. -/
def pageSlice {α : Type} (rs : List α) (page limit : Nat) : List α :=
  (rs.drop ((page - 1) * limit)).take limit

/-! ## Bookings (`controllers/bookingsController.js`) -/

/-- A booking document as created by `createBooking`. -/
structure Booking where
  productId : String
  productName : Option String
  productImage : Option String
  productCategory : Option String
  userId : Nat
  customerName : String
  customerPhone : String
  customerAddress : String
  quantity : Int
  bookingDate : String
  actualPrice : Int
  strikePrice : Int
  sellingPrice : Int
  totalAmount : Int
  discountPercentage : Int
  status : String
  cancellationReason : Option String
  orderDate : Nat
deriving DecidableEq, Repr

/-- Modelled from the spec: the Booking schema (`models/Booking.js`, not
under `src/`) stamps each booking with a creation-time `orderDate`
(the key `getBookings` sorts on, `.sort({ orderDate: -1 })`); the spec
calls it the booking's creation/booking date. -/
def orderKey (b : Booking) : Nat := b.orderDate

/-- Modelled from the spec: `Booking.updateStatus(s)` (Booking model not
under `src/`) sets the booking's `status` field to `s` — the transition
primitive used by `cancelBooking`/`completeBooking`. -/
def updateStatus (b : Booking) (s : String) : Booking :=
  { b with status := s }

/-- The authenticated caller attached by the access-control guard. -/
structure UserCtx where
  id : Nat
  role : String
deriving DecidableEq, Repr

/-- The request body of `createBooking`. -/
structure BookingReq where
  productId : Option String
  productName : Option String
  productImage : Option String
  productCategory : Option String
  customerName : Option String
  customerPhone : Option String
  customerAddress : Option String
  quantity : Option Int
  bookingDate : Option String
  actualPrice : Option Int
  strikePrice : Option Int
  sellingPrice : Option Int
  totalAmount : Option Int
  discountPercentage : Option Int
deriving Repr

/-- The required-fields truthiness gate of `createBooking` (line 297). -/
def bookingFieldsPresent (r : BookingReq) : Bool :=
  truthyS r.productId && truthyS r.customerName && truthyS r.customerPhone
    && truthyS r.customerAddress && truthyN r.quantity && truthyS r.bookingDate

/-- Outcome of `createBooking`. -/
inductive CreateBookingRes where
  | badRequest (msg : String)
  | notFound
  | created (b : Booking)
deriving DecidableEq, Repr

/-- `createBooking` (bookingsController.js lines 278–332). `findProduct`
abstracts `Product.findById`; `now` is the creation timestamp recorded as
`orderDate`. -/
def createBooking (findProduct : String → Option Product) (now : Nat)
    (u : UserCtx) (r : BookingReq) : CreateBookingRes :=
  if !bookingFieldsPresent r then .badRequest "Please provide all required fields"
  else
    match findProduct (r.productId.getD "") with
    | none => .notFound
    | some prod =>
      if prod.availability ≠ "Available" then
        .badRequest "Product is not available for booking"
      else .created {
        productId := r.productId.getD ""
        productName := r.productName
        productImage := r.productImage
        productCategory := r.productCategory
        userId := u.id
        customerName := r.customerName.getD ""
        customerPhone := r.customerPhone.getD ""
        customerAddress := r.customerAddress.getD ""
        quantity := r.quantity.getD 0
        bookingDate := r.bookingDate.getD ""
        actualPrice := numOrZero r.actualPrice
        strikePrice := numOrZero r.strikePrice
        sellingPrice := numOrZero r.sellingPrice
        totalAmount := numOrZero r.totalAmount
        discountPercentage := numOrZero r.discountPercentage
        status := "confirmed"
        cancellationReason := none
        orderDate := now }

/-- Outcome of `cancelBooking` / `completeBooking`. -/
inductive BookingOpRes where
  | notFound
  | forbidden
  | badRequest (msg : String)
  | ok (b : Booking)
deriving DecidableEq, Repr

/-- `cancelBooking` (lines 374–395): owner-or-admin gate, terminal-status
guards, then `updateStatus('cancelled')` plus the cancellation reason
(`req.body.reason || actor default`). -/
def cancelBooking (u : UserCtx) (bk : Option Booking)
    (reason : Option String) : BookingOpRes :=
  match bk with
  | none => .notFound
  | some b =>
    let isAdmin := u.role = "admin"
    let isOwner := b.userId = u.id
    if ¬(isAdmin ∨ isOwner) then .forbidden
    else if b.status = "cancelled" then .badRequest "Booking is already cancelled"
    else if b.status = "completed" then .badRequest "Cannot cancel a completed booking"
    else
      let b1 := updateStatus b "cancelled"
      let why := if truthyS reason then reason.getD ""
                 else if isAdmin then "Cancelled by Admin"
                 else "Cancelled by customer"
      .ok { b1 with cancellationReason := some why }

/-- `completeBooking` (lines 397–421): admin gate first, then
terminal-status guards, then `updateStatus('completed')`. -/
def completeBooking (u : UserCtx) (bk : Option Booking) : BookingOpRes :=
  if u.role ≠ "admin" then .forbidden
  else
    match bk with
    | none => .notFound
    | some b =>
      if b.status = "completed" then .badRequest "Booking is already marked as completed"
      else if b.status = "cancelled" then .badRequest "Cannot complete a cancelled booking"
      else .ok (updateStatus b "completed")

/-- Newest-first by `orderDate` (`.sort({ orderDate: -1 })`). -/
def sortBookingsDesc (l : List Booking) : List Booking :=
  l.mergeSort (fun a b => orderKey b ≤ orderKey a)

/-- `getBookings` (lines 334–353): everything for admins, only the
caller's documents otherwise; both sorted newest-first. -/
def getBookings (db : List Booking) (u : UserCtx) : List Booking :=
  if u.role = "admin" then sortBookingsDesc db
  else sortBookingsDesc (db.filter (fun b => b.userId == u.id))

/-! ## Theorems -/

/-- C2: a product created with `isActive` left to its default and then
soft-deleted (`isActive=false`, `availability='Discontinued'`) is excluded
from any listing whose query has no `isActive` parameter; and with the
remaining filters unconstrained it appears in the listing exactly when the
caller passes an explicit `isActive` override selecting inactive products. -/
theorem soft_deleted_products_hidden_by_default
    (tm : String → Product → Bool) (db : List Product) (q : ProductQuery)
    (b : CreateProductBody) (files : List UploadedFile) (aid : Nat) (p : Product)
    (_hp : createProduct b files aid = .created p) :
    (q.isActive = none → deleteProduct p ∉ listFiltered tm db q) ∧
    (∀ v, q.isActive = some v →
      q.category = none → q.condition = none → q.type = none →
      q.availability = none → q.minPrice = none → q.maxPrice = none →
      q.search = none → q.tags = none → deleteProduct p ∈ db →
      (deleteProduct p ∈ listFiltered tm db q ↔ qvalToBool v = false)) := by
  have hIa : (deleteProduct p).isActive = false := rfl
  constructor
  · intro h hmem
    simp only [listFiltered, List.mem_filter] at hmem
    rw [matchesFilter] at hmem
    simp [buildFilter, h, hIa] at hmem
  · intro v hv h1 h2 h3 h4 h5 h6 h7 h8 hmem
    simp only [listFiltered, List.mem_filter]
    rw [matchesFilter]
    simp [buildFilter, hv, h1, h2, h3, h4, h5, h6, h7, h8, hIa, presentS,
      truthyS, matchesOpt, hmem]

/-- Concrete data for the C2 witness: one uploaded image, a default
creation body, the created document, and the two listing queries. -/
def fileW : UploadedFile := ⟨some "https://img/u1", none, some "p1", none⟩

def createBodyW : CreateProductBody :=
  ⟨"Dell XPS", "A used laptop", "Laptops", "New", "Second Hand", none,
   .list [], 100, 120, 0, 1, .list []⟩

def productW : Product :=
  ⟨"Dell XPS", "A used laptop", "Laptops", "New", "Second Hand", "Available",
   100, 120, 0, 1, [], [], ["https://img/u1"], ["p1"], true, 0, 0, 7⟩

def queryNone : ProductQuery :=
  ⟨none, none, none, none, none, none, none, none, none⟩

def queryInactive : ProductQuery :=
  ⟨none, none, none, none, none, none, none, some (.str "false"), none⟩

/-- C2 witness: at a concrete soft-deleted product, the default listing
excludes it and the explicit `isActive=false` override includes it. -/
theorem soft_deleted_products_hidden_by_default_witness :
    (deleteProduct productW ∉
      listFiltered (fun _ _ => false) [deleteProduct productW] queryNone) ∧
    (deleteProduct productW ∈
      listFiltered (fun _ _ => false) [deleteProduct productW] queryInactive) := by
  have h := soft_deleted_products_hidden_by_default (fun _ _ => false)
    [deleteProduct productW] queryNone createBodyW [fileW] 7 productW rfl
  have h' := soft_deleted_products_hidden_by_default (fun _ _ => false)
    [deleteProduct productW] queryInactive createBodyW [fileW] 7 productW rfl
  refine ⟨h.1 rfl, ?_⟩
  exact (h'.2 (.str "false") rfl rfl rfl rfl rfl rfl rfl rfl rfl
    (List.mem_singleton.mpr rfl)).mpr (by decide)

/-- Helper: the write step of `updateUser` either trips the spec-modelled
unique index (internal error, store unchanged) or commits the updated
document. -/
theorem commitUserUpdate_cases (db : List User) (user : User) (b : UserUpdateBody) :
    (uniqueIndexViolation db (applyUserUpdate user b) = true ∧
      commitUserUpdate db user b = (.internalError, db)) ∨
    (uniqueIndexViolation db (applyUserUpdate user b) = false ∧
      commitUserUpdate db user b
        = (.ok (applyUserUpdate user b), replaceUser db (applyUserUpdate user b))) := by
  rw [commitUserUpdate]
  split
  · rename_i hv
    exact Or.inl ⟨hv, rfl⟩
  · rename_i hv
    exact Or.inr ⟨by simpa using hv, rfl⟩

/-- C8: an admin update request setting the actor's own role to "user"
fails with the self-demotion error and leaves the document list (hence the
stored role) unchanged; a delete request targeting the actor's own account
fails with `SelfDeleteForbidden` and leaves the list (hence the active
flag) unchanged; and neither guard ever fires when the target is a
different user. -/
theorem self_demotion_and_self_delete_guards
    (db : List User) (actorId targetId : Nat) (b : UserUpdateBody) :
    ((∃ u, findUserById db actorId = some u) → b.role = some "user" →
      updateUser db actorId actorId b = (.selfDemotion, db)) ∧
    ((∃ u, findUserById db actorId = some u) →
      deleteUser db actorId actorId = (.selfDeleteForbidden, db)) ∧
    (targetId ≠ actorId →
      (updateUser db actorId targetId b).1 ≠ .selfDemotion ∧
      (deleteUser db actorId targetId).1 ≠ .selfDeleteForbidden) := by
  refine ⟨?_, ?_, ?_⟩
  · rintro ⟨u, hu⟩ hrole
    rw [updateUser, hu]
    simp [hrole]
  · rintro ⟨u, hu⟩
    rw [deleteUser, hu]
    simp
  · intro hne
    constructor
    · rw [updateUser]
      match hfind : findUserById db targetId with
      | none => simp
      | some user =>
        simp only
        rw [if_neg (by rintro ⟨h, -⟩; exact hne h.symm)]
        split
        · split
          · simp
          · rcases commitUserUpdate_cases db user b with ⟨-, heq⟩ | ⟨-, heq⟩ <;>
              rw [heq] <;> simp
        · rcases commitUserUpdate_cases db user b with ⟨-, heq⟩ | ⟨-, heq⟩ <;>
            rw [heq] <;> simp
    · rw [deleteUser]
      match hfind : findUserById db targetId with
      | none => simp
      | some user =>
        simp only
        rw [if_neg (fun h => hne h.symm)]
        simp

/-- Concrete users for the user-service witnesses and counterexamples. -/
def adminU : User :=
  ⟨1, "Root", "root@x.com", "9000000000", "adminhash", "admin", true⟩

def aliceU : User :=
  ⟨2, "Alice", "alice@x.com", "9000000001", "oldhash", "user", true⟩

def bobU : User :=
  ⟨3, "Bob", "bob@x.com", "9000000002", "bobhash", "user", true⟩

/-- The all-absent update body, to be overridden per scenario. -/
def emptyUserBody : UserUpdateBody := ⟨none, none, none, none, none, none⟩

/-- C8 witness: with a concrete directory, the self-demotion and
self-delete guards fire on the actor's own account and stay silent for a
different target. -/
theorem self_demotion_and_self_delete_guards_witness :
    (updateUser [adminU, aliceU] 1 1 { emptyUserBody with role := some "user" }
      = (.selfDemotion, [adminU, aliceU])) ∧
    (deleteUser [adminU, aliceU] 1 1 = (.selfDeleteForbidden, [adminU, aliceU])) ∧
    ((updateUser [adminU, aliceU] 1 2 { emptyUserBody with role := some "user" }).1
      ≠ .selfDemotion) ∧
    ((deleteUser [adminU, aliceU] 1 2).1 ≠ .selfDeleteForbidden) := by
  have h := self_demotion_and_self_delete_guards [adminU, aliceU] 1 2
    { emptyUserBody with role := some "user" }
  have hfind : findUserById [adminU, aliceU] 1 = some adminU := by decide
  exact ⟨h.1 ⟨adminU, hfind⟩ rfl, h.2.1 ⟨adminU, hfind⟩,
    (h.2.2 (by decide)).1, (h.2.2 (by decide)).2⟩

/-- C4 (code bug): `updateUser` spreads the whole request body into
`findByIdAndUpdate`, so a body carrying only `password` overwrites the
stored password hash — the evaluation below shows the stored hash changing
from "oldhash" to the attacker-supplied value, contradicting the claim
that fields outside {name, email, phone, role, isActive} are ignored. -/
theorem updateUser_password_mass_assignment :
    (updateUser [adminU, aliceU] 1 2
        { emptyUserBody with password := some "hacked123" }).1
      = .ok { aliceU with password := "hacked123" } ∧
    aliceU.password = "oldhash" := by
  constructor <;> rfl

/-- C5 counterexample: Bob already holds the requested email, yet a
request changing BOTH email and phone on Alice passes the controller's
conflict check — no typed Conflict is ever produced; the write then trips
the spec-modelled unique index and the operation surfaces as the
catch-all internal error (HTTP 500), with the directory unchanged. -/
theorem updateUser_conflict_check_counterexample :
    updateUser [adminU, aliceU, bobU] 1 2
        { emptyUserBody with email := some "bob@x.com", phone := some "9000000003" }
      = (.internalError, [adminU, aliceU, bobU]) ∧
    bobU.email = "bob@x.com" ∧ bobU.id ≠ 2 := by
  refine ⟨rfl, rfl, by decide⟩

/-- Helper: when the email/phone gate is taken, `updateUser` reports
`Conflict` exactly when some stored user satisfies the conjunctive
conflict predicate, and a `Conflict` outcome leaves the directory
unchanged. -/
theorem updateUser_conflict_via_find
    (db : List User) (actorId targetId : Nat) (b : UserUpdateBody)
    (hfound : ∃ u, findUserById db targetId = some u)
    (hself : ¬(actorId = targetId ∧ b.role = some "user"))
    (hch : (truthyS b.email || truthyS b.phone) = true) :
    ((∃ m, (updateUser db actorId targetId b).1 = .conflict m) ↔
      ∃ u ∈ db, conflictPred targetId (includedEmail b) (includedPhone b) u = true) ∧
    (∀ m, (updateUser db actorId targetId b).1 = .conflict m →
      (updateUser db actorId targetId b).2 = db) := by
  obtain ⟨u, hu⟩ := hfound
  rw [updateUser, hu]
  simp only [hself, if_false, reduceIte, hch, if_true]
  match h : db.find? (conflictPred targetId (includedEmail b) (includedPhone b)) with
  | some ex =>
    refine ⟨iff_of_true ⟨_, rfl⟩ ⟨ex, List.mem_of_find?_eq_some h, List.find?_some h⟩, ?_⟩
    intro m _
    rfl
  | none =>
    constructor
    · constructor
      · rintro ⟨m, hm⟩
        have hm' : (commitUserUpdate db u b).1 = .conflict m := hm
        rcases commitUserUpdate_cases db u b with ⟨-, heq⟩ | ⟨-, heq⟩ <;>
          rw [heq] at hm' <;> simp at hm'
      · rintro ⟨w, hw, hpred⟩
        exact absurd hpred (by simpa using List.find?_eq_none.mp h w hw)
    · intro m hm
      have hm' : (commitUserUpdate db u b).1 = .conflict m := hm
      rcases commitUserUpdate_cases db u b with ⟨-, heq⟩ | ⟨-, heq⟩ <;>
        rw [heq] at hm' <;> simp at hm'

/-- C5 (amended): the conflict check is a CONJUNCTION over the changed
fields. When only the email changes, Conflict fires iff another user
holds that email; when only the phone changes, iff another user holds
that phone; when both change, iff a single other user holds both new
values simultaneously — a user holding only one of them does not trigger
the check, and the write is instead rejected by the persistence-layer
unique index, surfacing as an untyped internal error (never as Conflict).
A Conflict outcome always leaves the stored directory unchanged, a
committed write never duplicates another user's email or phone, and an
index rejection leaves the directory unchanged. -/
theorem updateUser_conflict_is_conjunctive
    (db : List User) (actorId targetId : Nat) (b : UserUpdateBody)
    (hfound : ∃ u, findUserById db targetId = some u)
    (hself : ¬(actorId = targetId ∧ b.role = some "user")) :
    (truthyS b.email = true → truthyS b.phone = false →
      ((∃ m, (updateUser db actorId targetId b).1 = .conflict m) ↔
        ∃ u ∈ db, u.id ≠ targetId ∧ some u.email = b.email)) ∧
    (truthyS b.email = false → truthyS b.phone = true →
      ((∃ m, (updateUser db actorId targetId b).1 = .conflict m) ↔
        ∃ u ∈ db, u.id ≠ targetId ∧ some u.phone = b.phone)) ∧
    (truthyS b.email = true → truthyS b.phone = true →
      ((∃ m, (updateUser db actorId targetId b).1 = .conflict m) ↔
        ∃ u ∈ db, u.id ≠ targetId ∧ some u.email = b.email ∧ some u.phone = b.phone)) ∧
    (∀ m, (updateUser db actorId targetId b).1 = .conflict m →
      (updateUser db actorId targetId b).2 = db) ∧
    (∀ u', (updateUser db actorId targetId b).1 = .ok u' →
      uniqueIndexViolation db u' = false) ∧
    ((updateUser db actorId targetId b).1 = .internalError →
      (updateUser db actorId targetId b).2 = db) := by
  have hmain : (∃ m, updateUser db actorId targetId b = (.conflict m, db)) ∨
      (updateUser db actorId targetId b = (.internalError, db)) ∨
      (∃ u, uniqueIndexViolation db (applyUserUpdate u b) = false ∧
        updateUser db actorId targetId b
          = (.ok (applyUserUpdate u b), replaceUser db (applyUserUpdate u b))) := by
    obtain ⟨u, hu⟩ := hfound
    rw [updateUser, hu]
    simp only [hself, if_false, reduceIte]
    by_cases hch : (truthyS b.email || truthyS b.phone) = true
    · simp only [hch, if_true]
      match h : db.find? (conflictPred targetId (includedEmail b) (includedPhone b)) with
      | some ex => exact Or.inl ⟨_, rfl⟩
      | none =>
        rcases commitUserUpdate_cases db u b with ⟨-, heq⟩ | ⟨hv, heq⟩
        · rw [heq]
          exact Or.inr (Or.inl rfl)
        · rw [heq]
          exact Or.inr (Or.inr ⟨u, hv, rfl⟩)
    · have hch' : (truthyS b.email || truthyS b.phone) = false := by
        simpa using hch
      simp only [hch', Bool.false_eq_true, if_false]
      rcases commitUserUpdate_cases db u b with ⟨-, heq⟩ | ⟨hv, heq⟩
      · rw [heq]
        exact Or.inr (Or.inl rfl)
      · rw [heq]
        exact Or.inr (Or.inr ⟨u, hv, rfl⟩)
  refine ⟨?_, ?_, ?_, ?_, ?_, ?_⟩
  · intro he hp
    obtain ⟨v, hv⟩ : ∃ v, b.email = some v := by
      cases hbe : b.email with
      | none => rw [hbe] at he; simp [truthyS] at he
      | some v => exact ⟨v, rfl⟩
    rw [(updateUser_conflict_via_find db actorId targetId b hfound hself (by simp [he])).1]
    rw [hv] at he
    apply exists_congr; intro w
    simp [conflictPred, includedEmail, includedPhone, he, hp, hv, bne_iff_ne]
  · intro he hp
    obtain ⟨v, hv⟩ : ∃ v, b.phone = some v := by
      cases hbp : b.phone with
      | none => rw [hbp] at hp; simp [truthyS] at hp
      | some v => exact ⟨v, rfl⟩
    rw [(updateUser_conflict_via_find db actorId targetId b hfound hself (by simp [hp])).1]
    rw [hv] at hp
    apply exists_congr; intro w
    simp [conflictPred, includedEmail, includedPhone, he, hp, hv, bne_iff_ne]
  · intro he hp
    obtain ⟨v, hv⟩ : ∃ v, b.email = some v := by
      cases hbe : b.email with
      | none => rw [hbe] at he; simp [truthyS] at he
      | some v => exact ⟨v, rfl⟩
    obtain ⟨w', hw'⟩ : ∃ w', b.phone = some w' := by
      cases hbp : b.phone with
      | none => rw [hbp] at hp; simp [truthyS] at hp
      | some w' => exact ⟨w', rfl⟩
    rw [(updateUser_conflict_via_find db actorId targetId b hfound hself (by simp [he])).1]
    rw [hv] at he
    rw [hw'] at hp
    apply exists_congr; intro w
    simp [conflictPred, includedEmail, includedPhone, he, hp, hv, hw', bne_iff_ne,
      and_assoc]
  · intro m hm
    by_cases hch : (truthyS b.email || truthyS b.phone) = true
    · exact (updateUser_conflict_via_find db actorId targetId b hfound hself hch).2 m hm
    · rcases hmain with ⟨m', heq⟩ | heq | ⟨u, hv, heq⟩
      · rw [heq]
      · rw [heq]
      · rw [heq] at hm
        simp at hm
  · intro u' hok
    rcases hmain with ⟨m, heq⟩ | heq | ⟨u, hv, heq⟩
    · rw [heq] at hok
      simp at hok
    · rw [heq] at hok
      simp at hok
    · rw [heq] at hok
      simp at hok
      rw [← hok]
      exact hv
  · intro hie
    rcases hmain with ⟨m, heq⟩ | heq | ⟨u, hv, heq⟩
    · rw [heq]
    · rw [heq]
    · rw [heq] at hie
      simp at hie

/-- C5 witness: when a single other user (Bob) holds BOTH requested
values, the both-changed update on Alice does report a conflict — the
amended characterization applied at a concrete directory. -/
theorem updateUser_conflict_is_conjunctive_witness :
    ∃ m, (updateUser [adminU, aliceU, bobU] 1 2
        { emptyUserBody with email := some "bob@x.com", phone := some "9000000002" }).1
      = .conflict m := by
  have h := updateUser_conflict_is_conjunctive [adminU, aliceU, bobU] 1 2
    { emptyUserBody with email := some "bob@x.com", phone := some "9000000002" }
    ⟨aliceU, by decide⟩ (by decide)
  exact (h.2.2.1 (by decide) (by decide)).mpr
    ⟨bobU, by decide, by decide, rfl, rfl⟩

/-- Helper shared by the booking claims: what a successful `createBooking`
guarantees — the product was found and Available, the status is
`confirmed`, and each pricing field is the `|| 0` of the request value. -/
theorem createBooking_created_spec
    (fp : String → Option Product) (now : Nat) (u : UserCtx) (r : BookingReq)
    (bk : Booking) (h : createBooking fp now u r = .created bk) :
    bk.status = "confirmed" ∧
    (∃ p, fp (r.productId.getD "") = some p ∧ p.availability = "Available") ∧
    bk.userId = u.id ∧
    bk.actualPrice = numOrZero r.actualPrice ∧
    bk.strikePrice = numOrZero r.strikePrice ∧
    bk.sellingPrice = numOrZero r.sellingPrice ∧
    bk.totalAmount = numOrZero r.totalAmount ∧
    bk.discountPercentage = numOrZero r.discountPercentage := by
  rw [createBooking] at h
  split at h
  · simp at h
  · split at h
    · simp at h
    · rename_i prod hfp
      split at h
      · simp at h
      · rename_i havail
        injection h with hbk
        subst hbk
        exact ⟨rfl, ⟨prod, hfp, by simpa using havail⟩, rfl, rfl, rfl, rfl, rfl, rfl⟩

/-- C10: every pricing snapshot field of a successfully created booking
equals the caller-supplied request value when that value is truthy and 0
otherwise (`x || 0`), and none of them depends on the looked-up product:
any other product lookup that also succeeds yields identical pricing. -/
theorem booking_pricing_snapshot
    (fp : String → Option Product) (now : Nat) (u : UserCtx) (r : BookingReq)
    (bk : Booking) (h : createBooking fp now u r = .created bk) :
    (bk.actualPrice = numOrZero r.actualPrice ∧
     bk.strikePrice = numOrZero r.strikePrice ∧
     bk.sellingPrice = numOrZero r.sellingPrice ∧
     bk.totalAmount = numOrZero r.totalAmount ∧
     bk.discountPercentage = numOrZero r.discountPercentage) ∧
    (∀ o : Option Int,
      (truthyN o = true → numOrZero o = o.getD 0) ∧
      (truthyN o = false → numOrZero o = 0)) ∧
    (∀ (fp' : String → Option Product) (bk' : Booking),
      createBooking fp' now u r = .created bk' →
      bk'.actualPrice = bk.actualPrice ∧
      bk'.strikePrice = bk.strikePrice ∧
      bk'.sellingPrice = bk.sellingPrice ∧
      bk'.totalAmount = bk.totalAmount ∧
      bk'.discountPercentage = bk.discountPercentage) := by
  obtain ⟨-, -, -, h1, h2, h3, h4, h5⟩ := createBooking_created_spec fp now u r bk h
  refine ⟨⟨h1, h2, h3, h4, h5⟩, ?_, ?_⟩
  · intro o
    constructor <;> intro ho <;> simp [numOrZero, ho]
  · intro fp' bk' h'
    obtain ⟨-, -, -, g1, g2, g3, g4, g5⟩ := createBooking_created_spec fp' now u r bk' h'
    rw [g1, g2, g3, g4, g5, h1, h2, h3, h4, h5]
    exact ⟨rfl, rfl, rfl, rfl, rfl⟩

/-- Concrete booking-creation data for the booking witnesses. -/
def bookReqW : BookingReq :=
  ⟨some "pid1", some "Dell XPS", none, none, some "Cust", some "9111111111",
   some "Addr", some 2, some "2025-01-01", some 500, none, some 450, some 900, some 10⟩

def findProductW : String → Option Product :=
  fun s => if s = "pid1" then some productW else none

def bookingW : Booking :=
  ⟨"pid1", some "Dell XPS", none, none, 5, "Cust", "9111111111", "Addr", 2,
   "2025-01-01", 500, 0, 450, 900, 10, "confirmed", none, 42⟩

/-- C10 witness: the pricing snapshot of a concrete created booking —
truthy values stored verbatim (500, 450, 900, 10), the absent
`strikePrice` stored as 0. -/
theorem booking_pricing_snapshot_witness :
    (bookingW.actualPrice = numOrZero bookReqW.actualPrice ∧
     bookingW.strikePrice = numOrZero bookReqW.strikePrice ∧
     bookingW.sellingPrice = numOrZero bookReqW.sellingPrice ∧
     bookingW.totalAmount = numOrZero bookReqW.totalAmount ∧
     bookingW.discountPercentage = numOrZero bookReqW.discountPercentage) ∧
    (∀ o : Option Int,
      (truthyN o = true → numOrZero o = o.getD 0) ∧
      (truthyN o = false → numOrZero o = 0)) ∧
    (∀ (fp' : String → Option Product) (bk' : Booking),
      createBooking fp' 42 ⟨5, "user"⟩ bookReqW = .created bk' →
      bk'.actualPrice = bookingW.actualPrice ∧
      bk'.strikePrice = bookingW.strikePrice ∧
      bk'.sellingPrice = bookingW.sellingPrice ∧
      bk'.totalAmount = bookingW.totalAmount ∧
      bk'.discountPercentage = bookingW.discountPercentage) :=
  booking_pricing_snapshot findProductW 42 ⟨5, "user"⟩ bookReqW bookingW rfl

/-- C1: the booking status machine. Creation succeeds only when the
referenced product resolves and is Available, and then yields status
`confirmed`; for an authorized caller, cancel moves `confirmed` to
`cancelled` and complete (admin) moves it to `completed`; cancel on a
cancelled/completed booking fails with the AlreadyCancelled /
CannotCancelCompleted messages, complete on a completed/cancelled booking
fails with the AlreadyCompleted / CannotCompleteCancelled messages; and
any successful cancel ends in `cancelled`, any successful complete in
`completed` — no other transition exists. -/
theorem booking_status_state_machine :
    (∀ (fp : String → Option Product) (now : Nat) (u : UserCtx) (r : BookingReq)
        (bk : Booking), createBooking fp now u r = .created bk →
      bk.status = "confirmed" ∧
      ∃ p, fp (r.productId.getD "") = some p ∧ p.availability = "Available") ∧
    (∀ (u : UserCtx) (b : Booking) (reason : Option String),
      (u.role = "admin" ∨ b.userId = u.id) →
      (b.status = "confirmed" →
        ∃ b', cancelBooking u (some b) reason = .ok b' ∧ b'.status = "cancelled") ∧
      (b.status = "cancelled" →
        cancelBooking u (some b) reason = .badRequest "Booking is already cancelled") ∧
      (b.status = "completed" →
        cancelBooking u (some b) reason = .badRequest "Cannot cancel a completed booking")) ∧
    (∀ (u : UserCtx) (b : Booking), u.role = "admin" →
      (b.status = "confirmed" →
        completeBooking u (some b) = .ok (updateStatus b "completed") ∧
        (updateStatus b "completed").status = "completed") ∧
      (b.status = "completed" →
        completeBooking u (some b) = .badRequest "Booking is already marked as completed") ∧
      (b.status = "cancelled" →
        completeBooking u (some b) = .badRequest "Cannot complete a cancelled booking")) ∧
    (∀ (u : UserCtx) (bk : Option Booking) (reason : Option String) (b' : Booking),
      cancelBooking u bk reason = .ok b' → b'.status = "cancelled") ∧
    (∀ (u : UserCtx) (bk : Option Booking) (b' : Booking),
      completeBooking u bk = .ok b' → b'.status = "completed") := by
  refine ⟨?_, ?_, ?_, ?_, ?_⟩
  · intro fp now u r bk h
    obtain ⟨h1, h2, -⟩ := createBooking_created_spec fp now u r bk h
    exact ⟨h1, h2⟩
  · intro u b reason hauth
    have hna : ¬¬(u.role = "admin" ∨ b.userId = u.id) := not_not_intro hauth
    refine ⟨?_, ?_, ?_⟩ <;> intro hs <;>
      simp [cancelBooking, hs, hna, updateStatus]
  · intro u b hadmin
    refine ⟨?_, ?_, ?_⟩ <;> intro hs <;>
      simp [completeBooking, hs, hadmin, updateStatus]
  · intro u bk reason b' h
    cases bk with
    | none => simp [cancelBooking.eq_def] at h
    | some b =>
      simp only [cancelBooking.eq_def] at h
      split at h
      · simp at h
      · split at h
        · simp at h
        · split at h
          · simp at h
          · injection h with h'
            rw [← h']
            simp [updateStatus]
  · intro u bk b' h
    simp only [completeBooking.eq_def] at h
    split at h
    · simp at h
    · cases bk with
      | none => simp at h
      | some b =>
        split at h
        · simp at h
        · split at h
          · simp at h
          · split at h
            · simp at h
            · injection h with h'
              rw [← h']
              rfl

/-- C1 witness: the whole machine exercised on a concrete booking — a
concrete creation is `confirmed`, cancel and complete act on it as
claimed, and the four error transitions fire on concrete terminal
bookings. -/
theorem booking_status_state_machine_witness :
    (bookingW.status = "confirmed" ∧
      ∃ p, findProductW (bookReqW.productId.getD "") = some p ∧
        p.availability = "Available") ∧
    (∃ b', cancelBooking ⟨5, "user"⟩ (some bookingW) none = .ok b' ∧
      b'.status = "cancelled") ∧
    (cancelBooking ⟨5, "user"⟩ (some { bookingW with status := "cancelled" }) none
      = .badRequest "Booking is already cancelled") ∧
    (cancelBooking ⟨5, "user"⟩ (some { bookingW with status := "completed" }) none
      = .badRequest "Cannot cancel a completed booking") ∧
    (completeBooking ⟨9, "admin"⟩ (some bookingW)
      = .ok (updateStatus bookingW "completed")) ∧
    (completeBooking ⟨9, "admin"⟩ (some { bookingW with status := "completed" })
      = .badRequest "Booking is already marked as completed") ∧
    (completeBooking ⟨9, "admin"⟩ (some { bookingW with status := "cancelled" })
      = .badRequest "Cannot complete a cancelled booking") := by
  have h := booking_status_state_machine
  refine ⟨h.1 findProductW 42 ⟨5, "user"⟩ bookReqW bookingW rfl, ?_, ?_, ?_, ?_, ?_, ?_⟩
  · exact (h.2.1 ⟨5, "user"⟩ bookingW none (Or.inr rfl)).1 rfl
  · exact (h.2.1 ⟨5, "user"⟩ { bookingW with status := "cancelled" } none
      (Or.inr rfl)).2.1 rfl
  · exact (h.2.1 ⟨5, "user"⟩ { bookingW with status := "completed" } none
      (Or.inr rfl)).2.2 rfl
  · exact ((h.2.2.1 ⟨9, "admin"⟩ bookingW rfl).1 rfl).1
  · exact (h.2.2.1 ⟨9, "admin"⟩ { bookingW with status := "completed" } rfl).2.1 rfl
  · exact (h.2.2.1 ⟨9, "admin"⟩ { bookingW with status := "cancelled" } rfl).2.2 rfl

/-- Sortedness of `sortBookingsDesc`: consecutive elements have
non-increasing `orderDate` (newest first). -/
theorem sortBookingsDesc_sorted (l : List Booking) :
    (sortBookingsDesc l).Pairwise (fun a b => orderKey b ≤ orderKey a) := by
  have h := @List.sorted_mergeSort Booking
    (fun a b : Booking => decide (orderKey b ≤ orderKey a))
    (fun a b c hab hbc => by
      simp only [decide_eq_true_eq] at *
      exact le_trans hbc hab)
    (fun a b => by
      simpa using Nat.le_total (orderKey b) (orderKey a))
    l
  exact h.imp (fun hab => by simpa using hab)

/-- C9: `getBookings` returns every stored booking (as a permutation)
when the caller is an admin, and exactly the bookings whose `userId` is
the caller's id otherwise; in both cases the result is sorted
newest-first by the booking's creation date. -/
theorem getBookings_scope_and_order (db : List Booking) (u : UserCtx) :
    (u.role = "admin" →
      List.Perm (getBookings db u) db ∧
      (getBookings db u).Pairwise (fun a b => orderKey b ≤ orderKey a)) ∧
    (u.role ≠ "admin" →
      List.Perm (getBookings db u) (db.filter (fun b => b.userId == u.id)) ∧
      (∀ b, b ∈ getBookings db u ↔ b ∈ db ∧ b.userId = u.id) ∧
      (getBookings db u).Pairwise (fun a b => orderKey b ≤ orderKey a)) := by
  constructor
  · intro h
    rw [getBookings, if_pos h]
    exact ⟨List.mergeSort_perm db _, sortBookingsDesc_sorted db⟩
  · intro h
    rw [getBookings, if_neg h]
    refine ⟨List.mergeSort_perm _ _, ?_, sortBookingsDesc_sorted _⟩
    intro b
    rw [sortBookingsDesc, List.mem_mergeSort, List.mem_filter]
    simp

/-- Concrete bookings for the C9 witness: three bookings, two owned by
user 5, with distinct order dates. -/
def bookingA : Booking := { bookingW with orderDate := 10 }

def bookingB : Booking := { bookingW with userId := 6, orderDate := 30 }

def bookingC : Booking := { bookingW with orderDate := 20 }

/-- C9 witness: on a concrete store, the admin sees a permutation of all
three bookings and a regular user sees exactly their own, both sorted
newest-first. -/
theorem getBookings_scope_and_order_witness :
    (List.Perm (getBookings [bookingA, bookingB, bookingC] ⟨9, "admin"⟩)
        [bookingA, bookingB, bookingC] ∧
      (getBookings [bookingA, bookingB, bookingC] ⟨9, "admin"⟩).Pairwise
        (fun a b => orderKey b ≤ orderKey a)) ∧
    (∀ b, b ∈ getBookings [bookingA, bookingB, bookingC] ⟨5, "user"⟩ ↔
      b ∈ [bookingA, bookingB, bookingC] ∧ b.userId = 5) := by
  constructor
  · exact (getBookings_scope_and_order [bookingA, bookingB, bookingC]
      ⟨9, "admin"⟩).1 rfl
  · exact ((getBookings_scope_and_order [bookingA, bookingB, bookingC]
      ⟨5, "user"⟩).2 (by decide)).2.1

/-- Helper: with a positive limit, `page < ceilDiv total limit` is the
same as `page * limit < total` — the `getUsers` and `listProducts`
hasNextPage computations agree. -/
theorem lt_ceilDiv_iff_mul_lt (total page limit : Nat) (hl : 1 ≤ limit) :
    page < ceilDiv total limit ↔ page * limit < total := by
  rw [ceilDiv, Nat.lt_iff_add_one_le, Nat.le_div_iff_mul_le hl]
  have h2 : (page + 1) * limit = page * limit + limit := by ring
  omega

/-- Helper: `ceilDiv total limit` is the exact ceiling of
`total / limit` for a positive limit. -/
theorem ceilDiv_is_ceiling (total limit : Nat) (hl : 1 ≤ limit) :
    total ≤ ceilDiv total limit * limit ∧
    ∀ k, total ≤ k * limit → ceilDiv total limit ≤ k := by
  constructor
  · have h1 : total + limit - 1 < (total + limit - 1) / limit * limit + limit :=
      Nat.lt_div_mul_add hl
    rw [ceilDiv]
    generalize (total + limit - 1) / limit * limit = A at h1 ⊢
    omega
  · intro k hk
    have hlt : total + limit - 1 < (k + 1) * limit := by
      have h2 : (k + 1) * limit = k * limit + limit := by ring
      omega
    exact Nat.lt_succ_iff.mp ((Nat.div_lt_iff_lt_mul hl).mpr hlt)

/-- C7: the pagination contract of `listProducts` and `getUsers` — the
metadata block reports the requested page, the exact ceiling
`totalPages`, `hasPrevPage` iff `page > 1`, `hasNextPage` iff records
follow the returned slice; the two endpoints compute identical metadata;
and the returned slice consists exactly of the records at offsets
`(page-1)*limit … min(page*limit, n) - 1` of the sorted matching list. -/
theorem pagination_contract {α : Type} (rs : List α) (p l : Nat)
    (_hp : 1 ≤ p) (hl : 1 ≤ l) :
    (productsPagination rs.length p l).currentPage = p ∧
    (productsPagination rs.length p l).totalItems = rs.length ∧
    rs.length ≤ (productsPagination rs.length p l).totalPages * l ∧
    (∀ k, rs.length ≤ k * l → (productsPagination rs.length p l).totalPages ≤ k) ∧
    ((productsPagination rs.length p l).hasPrevPage = true ↔ 1 < p) ∧
    ((productsPagination rs.length p l).hasNextPage = true ↔ p * l < rs.length) ∧
    usersPagination rs.length p l = productsPagination rs.length p l ∧
    (pageSlice rs p l).length = min l (rs.length - (p - 1) * l) ∧
    (∀ i (hi : i < (pageSlice rs p l).length),
      ∃ hj : (p - 1) * l + i < rs.length,
        (pageSlice rs p l).get ⟨i, hi⟩ = rs.get ⟨(p - 1) * l + i, hj⟩) := by
  obtain ⟨hc1, hc2⟩ := ceilDiv_is_ceiling rs.length l hl
  refine ⟨rfl, rfl, hc1, hc2, by simp [productsPagination], ?_, ?_, ?_, ?_⟩
  · simp [productsPagination]
  · simp only [usersPagination, productsPagination, PaginationMeta.mk.injEq,
      true_and, and_true]
    exact decide_eq_decide.mpr (lt_ceilDiv_iff_mul_lt rs.length p l hl)
  · simp [pageSlice]
  · intro i hi
    have hlen : (pageSlice rs p l).length = min l (rs.length - (p - 1) * l) := by
      simp [pageSlice]
    rw [hlen] at hi
    have hj : (p - 1) * l + i < rs.length := by omega
    refine ⟨hj, ?_⟩
    simp only [pageSlice, List.get_eq_getElem, List.getElem_take, List.getElem_drop]

/-- C7 witness: page 2 with limit 10 over 15 records returns the records
at offsets 10–14 (items 11–15), with `hasNextPage = false`,
`hasPrevPage = true`, `totalPages = 2`, and `getUsers` metadata equal to
the `listProducts` metadata. -/
theorem pagination_contract_witness :
    (productsPagination (List.range 15).length 2 10).currentPage = 2 ∧
    ((productsPagination (List.range 15).length 2 10).hasPrevPage = true ↔ 1 < 2) ∧
    ((productsPagination (List.range 15).length 2 10).hasNextPage = true ↔
      2 * 10 < (List.range 15).length) ∧
    usersPagination (List.range 15).length 2 10
      = productsPagination (List.range 15).length 2 10 ∧
    (pageSlice (List.range 15) 2 10).length
      = min 10 ((List.range 15).length - (2 - 1) * 10) ∧
    pageSlice (List.range 15) 2 10 = [10, 11, 12, 13, 14] ∧
    productsPagination (List.range 15).length 2 10
      = ⟨2, 2, 15, false, true⟩ := by
  have h := pagination_contract (List.range 15) 2 10 (by decide) (by decide)
  exact ⟨h.1, h.2.2.2.2.1, h.2.2.2.2.2.1, h.2.2.2.2.2.2.1,
    h.2.2.2.2.2.2.2.1, by decide, by decide⟩

/-- Helper: when every upload carries a truthy URL, the URL extraction is
a plain positional map over the files. -/
theorem extractUrls_wellFormed (files : List UploadedFile)
    (h : ∀ f ∈ files, truthyS (strOr f.path f.secure_url) = true) :
    extractUrls files = files.map (fun f => (strOr f.path f.secure_url).getD "") := by
  induction files with
  | nil => rfl
  | cons f fs ih =>
    have hf := h f (List.mem_cons_self f fs)
    have heq : strOr f.path f.secure_url = some ((strOr f.path f.secure_url).getD "") := by
      cases ho : strOr f.path f.secure_url with
      | none => rw [ho] at hf; simp [truthyS] at hf
      | some s => simp
    rw [extractUrls, List.map_cons, List.filterMap_cons]
    simp only [hf, if_true]
    rw [List.map_cons]
    conv_lhs => rw [heq]
    rw [← extractUrls, ih (fun g hg => h g (List.mem_cons_of_mem f hg))]

/-- Helper: when every upload carries a truthy storage id, the id
extraction is a plain positional map over the files. -/
theorem extractIds_wellFormed (files : List UploadedFile)
    (h : ∀ f ∈ files, truthyS (strOr f.filename f.public_id) = true) :
    extractIds files = files.map (fun f => (strOr f.filename f.public_id).getD "") := by
  induction files with
  | nil => rfl
  | cons f fs ih =>
    have hf := h f (List.mem_cons_self f fs)
    have heq : strOr f.filename f.public_id = some ((strOr f.filename f.public_id).getD "") := by
      cases ho : strOr f.filename f.public_id with
      | none => rw [ho] at hf; simp [truthyS] at hf
      | some s => simp
    rw [extractIds, List.map_cons, List.filterMap_cons]
    simp only [hf, if_true]
    rw [List.map_cons]
    conv_lhs => rw [heq]
    rw [← extractIds, ih (fun g hg => h g (List.mem_cons_of_mem f hg))]

/-- Update body that only removes the storage id "p1". -/
def removeBodyC3 : ProductUpdateBody :=
  ⟨none, none, none, none, none, none, none, none, none, none, none, none,
   none, some (.list ["p1"])⟩

/-- C3 counterexample: on a product whose arrays are aligned
(`images = [u1]`, `imagePublicIds = [p1]`), an update removing `p1`
shrinks `imagePublicIds` to length 0 but leaves `images` at length 1 —
the two arrays no longer have equal length. -/
theorem image_arrays_misalignment_counterexample :
    (updateProduct productW removeBodyC3 []).images.length = 1 ∧
    (updateProduct productW removeBodyC3 []).imagePublicIds.length = 0 ∧
    productW.images.length = productW.imagePublicIds.length := by
  refine ⟨rfl, rfl, rfl⟩

/-- C3 (amended): alignment holds at creation and is preserved by image
ADDITION — with well-formed uploads both arrays are positional maps over
the same file list, so their lengths agree and appending preserves
equality of lengths; image REMOVAL, however, filters only
`imagePublicIds` and leaves `images` untouched, so it breaks alignment
whenever a present identifier is removed. -/
theorem image_arrays_alignment
    (b : CreateProductBody) (files : List UploadedFile) (aid : Nat) (p : Product)
    (hwf : ∀ f ∈ files, truthyS (strOr f.path f.secure_url) = true ∧
      truthyS (strOr f.filename f.public_id) = true) :
    (∀ q, createProduct b files aid = .created q →
      q.images = files.map (fun f => (strOr f.path f.secure_url).getD "") ∧
      q.imagePublicIds = files.map (fun f => (strOr f.filename f.public_id).getD "") ∧
      q.images.length = q.imagePublicIds.length) ∧
    (∀ ub : ProductUpdateBody, ub.removePublicIds = none →
      (updateProduct p ub files).images
        = p.images ++ files.map (fun f => (strOr f.path f.secure_url).getD "") ∧
      (updateProduct p ub files).imagePublicIds
        = p.imagePublicIds ++ files.map (fun f => (strOr f.filename f.public_id).getD "") ∧
      (p.images.length = p.imagePublicIds.length →
        (updateProduct p ub files).images.length
          = (updateProduct p ub files).imagePublicIds.length)) ∧
    (∀ (ub : ProductUpdateBody) (rv : FlexInput), ub.removePublicIds = some rv →
      truthyFlex rv = true →
      (updateProduct p ub []).images = p.images ∧
      (updateProduct p ub []).imagePublicIds
        = p.imagePublicIds.filter (fun pid => !(normalizeRemoveIds rv).contains pid)) := by
  have hurls := extractUrls_wellFormed files (fun f hf => (hwf f hf).1)
  have hids := extractIds_wellFormed files (fun f hf => (hwf f hf).2)
  refine ⟨?_, ?_, ?_⟩
  · intro q hq
    rw [createProduct] at hq
    split at hq
    · simp at hq
    · injection hq with hq'
      subst hq'
      exact ⟨hurls, hids, by rw [hurls, hids]; simp⟩
  · intro ub hnone
    by_cases hf0 : files = []
    · subst hf0
      refine ⟨by simp [updateProduct, updateProductImages, hnone], ?_, ?_⟩
      · simp [updateProduct, updateProductImages, hnone]
      · intro hlen
        simpa [updateProduct, updateProductImages, hnone] using hlen
    · have hne : files.length ≠ 0 := by
        simpa [List.length_eq_zero] using hf0
      refine ⟨?_, ?_, ?_⟩
      · simp [updateProduct, updateProductImages, hnone, hne, hurls]
      · simp [updateProduct, updateProductImages, hnone, hne, hids]
      · intro hlen
        simp [updateProduct, updateProductImages, hnone, hne, hurls, hids, hlen]
  · intro ub rv hsome htr
    constructor
    · simp [updateProduct, updateProductImages, hsome, htr]
    · simp [updateProduct, updateProductImages, hsome, htr]

/-- C3 witness: the amended alignment applied at a concrete, well-formed
upload — creation yields aligned singleton arrays, an addition without
removal keeps the lengths equal, and a removal leaves `images` untouched
while filtering `imagePublicIds`. -/
theorem image_arrays_alignment_witness :
    (productW.images = [fileW].map (fun f => (strOr f.path f.secure_url).getD "") ∧
      productW.imagePublicIds
        = [fileW].map (fun f => (strOr f.filename f.public_id).getD "") ∧
      productW.images.length = productW.imagePublicIds.length) ∧
    ((updateProduct productW removeBodyC3 []).images = productW.images ∧
      (updateProduct productW removeBodyC3 []).imagePublicIds
        = productW.imagePublicIds.filter
            (fun pid => !(normalizeRemoveIds (.list ["p1"])).contains pid)) := by
  have h := image_arrays_alignment createBodyW [fileW] 7 productW
    (by intro f hf; rw [List.mem_singleton] at hf; subst hf; exact ⟨rfl, rfl⟩)
  exact ⟨h.1 productW rfl, h.2.2 removeBodyC3 (.list ["p1"]) rfl rfl⟩

/-- The canonical comma-delimited string carrying the elements of `xs`
(the "single delimited string of the same elements" shape). -/
def joinComma : List String → String
  | [] => ""
  | [x] => x
  | x :: y :: ys => x ++ "," ++ joinComma (y :: ys)

/-- Splitting a comma-free chunk yields a single piece. -/
theorem splitCommaAux_no_comma (x : List Char) (hx : ',' ∉ x) (acc : List Char) :
    splitCommaAux x acc = [acc.reverse ++ x] := by
  induction x generalizing acc with
  | nil => simp [splitCommaAux]
  | cons c cs ih =>
    have hc : ¬(c = ',') := fun h => hx (h ▸ List.mem_cons_self c cs)
    rw [splitCommaAux, if_neg hc, ih (fun h => hx (List.mem_cons_of_mem c h))]
    simp

/-- Splitting a comma-free chunk followed by a comma peels off one piece. -/
theorem splitCommaAux_append (x : List Char) (hx : ',' ∉ x) (l acc : List Char) :
    splitCommaAux (x ++ ',' :: l) acc = (acc.reverse ++ x) :: splitCommaAux l [] := by
  induction x generalizing acc with
  | nil => simp [splitCommaAux]
  | cons c cs ih =>
    have hc : ¬(c = ',') := fun h => hx (h ▸ List.mem_cons_self c cs)
    rw [List.cons_append, splitCommaAux, if_neg hc,
      ih (fun h => hx (List.mem_cons_of_mem c h))]
    simp

/-- Rebuilding a string from its character list is the identity. -/
theorem string_mk_toList (s : String) : String.mk s.toList = s := by
  cases s
  rfl

/-- `toList` distributes over string append. -/
theorem string_toList_append (a b : String) : (a ++ b).toList = a.toList ++ b.toList := by
  cases a
  cases b
  rfl

/-- JS `split(',')` is a left inverse of the comma join on nonempty lists
of comma-free elements. -/
theorem jsSplitComma_joinComma (xs : List String) (hne : xs ≠ [])
    (hcf : ∀ x ∈ xs, ',' ∉ x.toList) :
    jsSplitComma (joinComma xs) = xs := by
  induction xs with
  | nil => exact absurd rfl hne
  | cons x ys ih =>
    cases ys with
    | nil =>
      rw [joinComma, jsSplitComma,
        splitCommaAux_no_comma x.toList (hcf x (List.mem_cons_self x [])) []]
      simp [string_mk_toList]
    | cons y ys' =>
      rw [joinComma, jsSplitComma]
      have htl : (x ++ "," ++ joinComma (y :: ys')).toList
          = x.toList ++ ',' :: (joinComma (y :: ys')).toList := by
        rw [string_toList_append, string_toList_append, List.append_assoc]
        rfl
      rw [htl, splitCommaAux_append x.toList
        (hcf x (List.mem_cons_self x (y :: ys'))) _ []]
      rw [List.map_cons, ← jsSplitComma,
        ih (by simp) (fun g hg => hcf g (List.mem_cons_of_mem x hg))]
      simp [string_mk_toList]

/-- Mapping a function that fixes every element is the identity. -/
theorem map_fixed {f : String → String} (ys : List String)
    (h : ∀ x ∈ ys, f x = x) : ys.map f = ys := by
  induction ys with
  | nil => rfl
  | cons a as ih =>
    rw [List.map_cons, h a (List.mem_cons_self a as),
      ih (fun b hb => h b (List.mem_cons_of_mem a hb))]

/-- Filtering out empty strings keeps a list of nonempty strings. -/
theorem filter_nonempty (ys : List String) (h : ∀ x ∈ ys, x ≠ "") :
    ys.filter (· ≠ "") = ys := by
  rw [List.filter_eq_self]
  intro a ha
  simpa using h a ha

/-- C6 counterexample: a structured list is stored verbatim while the
equivalent single string is normalized — tags `["A"]` stay `["A"]` but
the string `"A"` becomes `["a"]`, and features `[" a "]` stay untrimmed
while the string `" a "` becomes `["a"]`. -/
theorem normalization_shapes_differ_counterexample :
    normalizeTagsCreate (.list ["A"]) = ["A"] ∧
    normalizeTagsCreate (.str "A") = ["a"] ∧
    normalizeFeaturesCreate (.list [" a "]) = [" a "] ∧
    normalizeFeaturesCreate (.str " a ") = ["a"] ∧
    (["A"] : List String) ≠ ["a"] ∧ ([" a "] : List String) ≠ ["a"] := by
  exact ⟨rfl, by decide, rfl, by decide, by decide, by decide⟩

/-- C6 (amended): `createProduct` and `updateProduct` normalize string
inputs identically (comma-split, trim, tags lowercased, empty elements
dropped), while structured lists are stored verbatim with no
normalization; consequently the two input shapes produce identical stored
results exactly on lists that are already in normal form — for every list
of trimmed (and, for tags, lowercased), nonempty, comma-free elements,
the comma-joined string normalizes back to the list itself. The tag
filter of the listing normalizes string input the same way except that it
keeps empty elements. -/
theorem normalization_two_shapes
    (v : FlexInput) (xs ts : List String)
    (hxf : ∀ x ∈ xs, jsTrim x = x ∧ x ≠ "" ∧ ',' ∉ x.toList)
    (htf : ∀ x ∈ ts, jsToLower (jsTrim x) = x ∧ x ≠ "" ∧ ',' ∉ x.toList) :
    normalizeFeaturesUpdate v = normalizeFeaturesCreate v ∧
    normalizeTagsUpdate v = normalizeTagsCreate v ∧
    normalizeFeaturesCreate (.list xs) = xs ∧
    normalizeTagsCreate (.list ts) = ts ∧
    normalizeFeaturesCreate (.str (joinComma xs)) = xs ∧
    normalizeTagsCreate (.str (joinComma ts)) = ts ∧
    (normalizeTagsFilter (.str "a,,b") = ["a", "", "b"] ∧
      normalizeTagsCreate (.str "a,,b") = ["a", "b"]) := by
  refine ⟨rfl, rfl, rfl, rfl, ?_, ?_, by decide, by decide⟩
  · cases xs with
    | nil => rfl
    | cons x xs' =>
      rw [normalizeFeaturesCreate,
        jsSplitComma_joinComma _ (by simp) (fun g hg => (hxf g hg).2.2),
        map_fixed _ (fun g hg => (hxf g hg).1),
        filter_nonempty _ (fun g hg => (hxf g hg).2.1)]
  · cases ts with
    | nil => rfl
    | cons t ts' =>
      rw [normalizeTagsCreate,
        jsSplitComma_joinComma _ (by simp) (fun g hg => (htf g hg).2.2),
        map_fixed _ (fun g hg => (htf g hg).1),
        filter_nonempty _ (fun g hg => (htf g hg).2.1)]

/-- C6 witness: the amended normalization agreement at a concrete
normal-form list — joining `["ab", "cd"]` with commas and normalizing it
as a string reproduces the structured-list result for both features and
tags. -/
theorem normalization_two_shapes_witness :
    normalizeFeaturesCreate (.str (joinComma ["ab", "cd"])) = ["ab", "cd"] ∧
    normalizeTagsCreate (.str (joinComma ["ab", "cd"])) = ["ab", "cd"] ∧
    normalizeFeaturesCreate (.list ["ab", "cd"]) = ["ab", "cd"] := by
  have h := normalization_two_shapes (.list ["ab", "cd"]) ["ab", "cd"] ["ab", "cd"]
    (by decide) (by decide)
  exact ⟨h.2.2.2.2.1, h.2.2.2.2.2.1, h.2.2.1⟩

end GlobalITZone
